import Mathlib

/-!
# Verification of the Fastify employee CRUD service

A shallow embedding of the employee-record service:

* `src/routes/employee/index.js` — route handlers (list, getById, create,
  update, delete) and the in-memory state module (`employees` array plus a
  `nextId` counter);
* `src/schemas/employee.schema.js` and the inline `createEmployeeSchema` /
  `updateEmployeeSchema` — the AJV JSON-schema body validation attached to
  POST and PUT;
* `src/server.js` — the `setErrorHandler` callback turning the first AJV
  validation error into a single error message.

JSON numbers are modelled as exact rationals (`Rat`); the values exercised
by the service (small integers and short decimals) are represented exactly.
Body validation models AJV as Fastify configures it: `allErrors: true` from
`src/server.js` is merged per key into Fastify's defaults, which include
`coerceTypes: 'array'`, so scalar type coercion is active.  Errors are
emitted in AJV `allErrors` order: `required` errors first (in the order of
the `required` array), then per-property errors in the declaration order of
`properties` (`id`, `name`, `age`); inside a property subschema the `type`
check (with coercion) precedes `minimum` / `maximum` / `multipleOf` /
`minLength`, a failed `type` check suppresses the remaining keywords, and a
successful coercion replaces the value in the body that the handler then
reads.  AJV's scalar coercion rules: to number/integer from a non-empty
numeric string (for integer, only when its value is integral), from a
boolean (`true` → 1, `false` → 0) and from `null` (→ 0); to string from a
number or boolean (never from `null`); a non-integral number is not coerced
to integer and fails the type check.  Numeric strings are modelled by the
optional-sign decimal-numeral grammar `[+-]? digits [. digits]?` (with at
least one digit); exotic JS numeric forms (exponents, hex, `Infinity`,
surrounding whitespace) are outside the modelled request grammar.
-/

/-- A JSON value, as delivered by the body parser.  Arrays/objects never
reach the validated fields of this API and are omitted. -/
inductive JsonValue where
  | vnull : JsonValue
  | vbool : Bool → JsonValue
  | vnum : Rat → JsonValue
  | vstr : String → JsonValue
  deriving DecidableEq

/-- A POST/PUT request body: the three properties of `createEmployeeSchema`,
each optional at the parsing level (`required` is checked by validation). -/
structure ReqBody where
  id : Option JsonValue
  name : Option JsonValue
  age : Option JsonValue
  deriving DecidableEq

/-- The AJV error keywords produced by `createEmployeeSchema`. -/
inductive VKeyword where
  | required : VKeyword
  | vtype : VKeyword
  | minimum : VKeyword
  | maximum : VKeyword
  | minLength : VKeyword
  | multipleOf : VKeyword
  deriving DecidableEq

/-- One AJV validation error: the fields of `error.validation[i]` that
`setErrorHandler` in `src/server.js` reads. -/
structure VError where
  keyword : VKeyword
  instancePath : String
  missingProperty : Option String
  limit : Option Nat
  typeName : Option String
  deriving DecidableEq

/-- `Number.isInteger` on an exact rational. -/
def isInt (q : Rat) : Bool := q.den == 1

/-- A digit character `0`–`9` (the regex class `\d`). -/
def isDigitChar (c : Char) : Bool := 48 ≤ c.toNat && c.toNat ≤ 57

/-- The natural number denoted by a digit string. -/
def digitsToNat (cs : List Char) : Nat :=
  cs.foldl (fun n c => n * 10 + (c.toNat - 48)) 0

/-- Splits a character list at its single dot, if the list has at most one
dot; `none` when there are two or more. -/
def splitDot : List Char → Option (List Char × List Char)
  | [] => some ([], [])
  | c :: cs =>
      if c = '.' then
        if cs.any (fun d => d = '.') then none else some ([], cs)
      else
        match splitDot cs with
        | some (ip, fp) => some (c :: ip, fp)
        | none => none

/-- The number denoted by an optional-sign decimal-numeral string
`[+-]? digits [. digits]?` (at least one digit), or `none`.  This is the
modelled grammar of JS numeric strings accepted by AJV's string-to-number
coercion (`data == +data` on a non-empty string). -/
def parseDecimal? (s : String) : Option Rat :=
  let signed : Bool × List Char :=
    match s.data with
    | '-' :: rest => (true, rest)
    | '+' :: rest => (false, rest)
    | cs => (false, cs)
  match splitDot signed.2 with
  | none => none
  | some (ip, fp) =>
      if ip.all isDigitChar && fp.all isDigitChar && !(ip.isEmpty && fp.isEmpty) then
        let n : Int := Int.ofNat (digitsToNat (ip ++ fp))
        some (mkRat (if signed.1 then -n else n) (10 ^ fp.length))
      else none

/-- AJV coercion to `number`: numbers kept, numeric strings parsed, booleans
mapped to 1/0, `null` to 0; `none` means the type check fails. -/
def coerceToNumber : JsonValue → Option Rat
  | .vnum q => some q
  | .vstr s => parseDecimal? s
  | .vbool c => some (if c then 1 else 0)
  | .vnull => some 0

/-- AJV coercion to `integer`: as to `number`, except a string must denote
an integral value and a non-integral number is not coerced (numbers are
never coerced) and fails the type check. -/
def coerceToInteger : JsonValue → Option Rat
  | .vnum q => if isInt q then some q else none
  | .vstr s =>
      match parseDecimal? s with
      | some q => if isInt q then some q else none
      | none => none
  | .vbool c => some (if c then 1 else 0)
  | .vnull => some 0

/-- Smallest exponent `k` (searched up to the fuel) with `d ∣ 10 ^ k`. -/
def decExponentAux (d : Nat) : Nat → Nat → Option Nat
  | _, 0 => none
  | k, fuel + 1 => if 10 ^ k % d = 0 then some k else decExponentAux d (k + 1) fuel

/-- JS `String(n)` on a number: integers print without a point, decimal
fractions print their digits after a point (the minimal exponent leaves no
trailing zero, as in JS).  Rationals with no finite decimal form cannot
arise from a JSON numeral; they fall back to the raw rational rendering. -/
def jsNumberToString (q : Rat) : String :=
  if q.den = 1 then toString q.num
  else
    match decExponentAux q.den 0 q.den with
    | some k =>
        let m := (q.num * ((10 : Int) ^ k) / (q.den : Int)).natAbs
        let ds := toString m
        let padded := String.mk (List.replicate (k + 1 - ds.length) '0') ++ ds
        (if q.num < 0 then "-" else "")
          ++ String.mk (padded.data.take (padded.length - k)) ++ "."
          ++ String.mk (padded.data.drop (padded.length - k))
    | none => toString q

/-- AJV coercion to `string`: strings kept, numbers and booleans
stringified; `null` is not coerced and fails the type check. -/
def coerceToString : JsonValue → Option String
  | .vstr s => some s
  | .vnum q => some (jsNumberToString q)
  | .vbool c => some (if c then "true" else "false")
  | .vnull => none

/-- The `id` subschema `{type: number, minimum: 1, multipleOf: 1}` under
coercion: the errors and the value the validator leaves in the body (raw
when the type check failed). -/
def validateId (v : JsonValue) : List VError × JsonValue :=
  match coerceToNumber v with
  | some q =>
      ((if q < 1 then [⟨.minimum, "/id", none, some 1, none⟩] else [])
         ++ (if isInt q then [] else [⟨.multipleOf, "/id", none, some 1, none⟩]),
       .vnum q)
  | none => ([⟨.vtype, "/id", none, none, some "number"⟩], v)

/-- The `name` subschema `{type: string, minLength: 1}` under coercion. -/
def validateName (v : JsonValue) : List VError × JsonValue :=
  match coerceToString v with
  | some s =>
      ((if s.length < 1 then [⟨.minLength, "/name", none, some 1, none⟩] else []),
       .vstr s)
  | none => ([⟨.vtype, "/name", none, none, some "string"⟩], v)

/-- The `age` subschema `{type: integer, minimum: 5, maximum: 95}` under
coercion. -/
def validateAge (v : JsonValue) : List VError × JsonValue :=
  match coerceToInteger v with
  | some q =>
      ((if q < 5 then [⟨.minimum, "/age", none, some 5, none⟩] else [])
         ++ (if 95 < q then [⟨.maximum, "/age", none, some 95, none⟩] else []),
       .vnum q)
  | none => ([⟨.vtype, "/age", none, none, some "integer"⟩], v)

/-- `required: ["name", "age"]` errors, reported in array order. -/
def requiredErrors (b : ReqBody) : List VError :=
  (if b.name.isNone then [⟨.required, "", some "name", none, none⟩] else [])
    ++ (if b.age.isNone then [⟨.required, "", some "age", none, none⟩] else [])

/-- Property errors for an optional field (absent fields produce none). -/
def idErrors : Option JsonValue → List VError
  | some v => (validateId v).1
  | none => []

def nameErrors : Option JsonValue → List VError
  | some v => (validateName v).1
  | none => []

def ageErrors : Option JsonValue → List VError
  | some v => (validateAge v).1
  | none => []

/-- Validation of a body against `createEmployeeSchema` (used by both POST
and PUT): `required` first, then properties in declaration order
`id`, `name`, `age`. -/
def validateCreate (b : ReqBody) : List VError :=
  requiredErrors b ++ idErrors b.id ++ nameErrors b.name ++ ageErrors b.age

/-- The possibly-coerced value a property validator leaves in the body. -/
def coerceField (f : JsonValue → List VError × JsonValue) :
    Option JsonValue → Option JsonValue
  | some v => some (f v).2
  | none => none

/-- The request body after validation: AJV's coercion has replaced the
fields in place, and this is what the route handler reads. -/
def coerceBody (b : ReqBody) : ReqBody :=
  ⟨coerceField validateId b.id, coerceField validateName b.name,
   coerceField validateAge b.age⟩

/-- JS `String.prototype.replace('/', '')`: removes the first slash only. -/
def dropFirstSlash : List Char → List Char
  | [] => []
  | c :: cs => if c = '/' then cs else c :: dropFirstSlash cs

/-- `firstError.instancePath.replace('/', '') || firstError.params.missingProperty
|| 'data'` from `src/server.js`. -/
def jsField (path : String) (missing : Option String) : String :=
  let f : String := ⟨dropFirstSlash path.data⟩
  if f = "" then
    match missing with
    | some m => if m = "" then "data" else m
    | none => "data"
  else f

def limitText : Option Nat → String
  | some n => toString n
  | none => "undefined"

def typeText : Option String → String
  | some t => t
  | none => "undefined"

def missingText : Option String → String
  | some m => m
  | none => "undefined"

/-- The `setErrorHandler` message computation of `src/server.js`: the first
validation error is turned into one message, with any age-related
`minimum`/`maximum`/`type`/`multipleOf` failure unified to a single text. -/
def errorMessage (errors : List VError) : String :=
  match errors with
  | [] => "Validation failed"
  | e :: _ =>
    let field := jsField e.instancePath e.missingProperty
    if field = "age" ∧ (e.keyword = .minimum ∨ e.keyword = .maximum
        ∨ e.keyword = .vtype ∨ e.keyword = .multipleOf) then
      "Age must be between 5 and 95 years"
    else
      match e.keyword with
      | .minimum =>
          if field = "id" then "ID must be at least " ++ limitText e.limit
          else field ++ " must be at least " ++ limitText e.limit
      | .maximum => field ++ " must be at most " ++ limitText e.limit
      | .vtype => field ++ " must be a " ++ typeText e.typeName
      | .required => missingText e.missingProperty ++ " is required"
      | .minLength => field ++ " cannot be empty"
      | .multipleOf => field ++ " must be a whole number"

/-- A stored employee record `{id, name, age}`.  Validated ids are positive
integers (`parseInt` of a digit string, or a body id constrained to an
integer `≥ 1`), so `Nat` represents them exactly. -/
structure Employee where
  id : Nat
  name : String
  age : Rat
  deriving DecidableEq

/-- The state module `src/routes/employee/state.js`: the `employees` array
and the `nextId` counter. -/
structure AppState where
  employees : List Employee
  nextId : Nat
  deriving DecidableEq

/-- The module-initial state (`employees = []`, `nextId = 1`). -/
def initialState : AppState := ⟨[], 1⟩

/-- `state.reset()`: clears the records and sets the counter back to 1,
whatever the previous state was. -/
def resetOp (_ : AppState) : AppState := ⟨[], 1⟩

/-- A handler's outcome: `reply.code(st).send({success, message, data})` on
the data-carrying paths, or an error body `{success: false, message}`. -/
inductive ApiResult where
  | ok (status : Nat) (message : String) (data : Employee) : ApiResult
  | err (status : Nat) (message : String) : ApiResult
  deriving DecidableEq

/-- Destructured `name` of a validated body (always a string there). -/
def getStr : Option JsonValue → String
  | some (.vstr s) => s
  | _ => ""

/-- Destructured `age` of a validated body (always a number there). -/
def getNum : Option JsonValue → Rat
  | some (.vnum q) => q
  | _ => 0

/-- `Number(id)` on a validated body id (an integer `≥ 1`), as a `Nat`. -/
def jsNumToNat : JsonValue → Nat
  | .vnum q => q.num.toNat
  | _ => 0

/-- The strict id-format check `/^\d+$/.test(id)` on a path parameter. -/
def isDigits (s : String) : Bool := s.data != [] && s.data.all isDigitChar

/-- `parseInt` on an all-digit string. -/
def parseIntDigits (s : String) : Nat :=
  s.data.foldl (fun n c => n * 10 + (c.toNat - 48)) 0

/-- The POST handler body (after Fastify has validated the request body
against `createEmployeeSchema`): explicit ids are collision-checked against
the store, auto ids are drawn from the counter, and the new record is
appended. -/
def createHandler (st : AppState) (b : ReqBody) : ApiResult × AppState :=
  match b.id with
  | some v =>
      let employeeId := jsNumToNat v
      if (st.employees.find? (fun emp => emp.id == employeeId)).isSome then
        (.err 409 ("Employee with ID " ++ toString employeeId ++ " already exists"), st)
      else
        let newEmployee : Employee := ⟨employeeId, getStr b.name, getNum b.age⟩
        (.ok 201 "Employee created successfully" newEmployee,
          ⟨st.employees ++ [newEmployee], st.nextId⟩)
  | none =>
      let employeeId := st.nextId
      let newEmployee : Employee := ⟨employeeId, getStr b.name, getNum b.age⟩
      (.ok 201 "Employee created successfully" newEmployee,
        ⟨st.employees ++ [newEmployee], employeeId + 1⟩)

/-- `POST /employees`: body validation (which coerces the body in place),
then the handler on the coerced body. -/
def postEmployees (st : AppState) (b : ReqBody) : ApiResult × AppState :=
  match validateCreate b with
  | [] => createHandler st (coerceBody b)
  | errs => (.err 400 (errorMessage errs), st)

/-- `GET /employees/:id`: strict format check, then lookup by `===` on the
parsed id. -/
def getEmployeeById (st : AppState) (idStr : String) : ApiResult :=
  if !isDigits idStr then .err 400 "Invalid ID format. ID must be a number."
  else
    match st.employees.find? (fun emp => emp.id == parseIntDigits idStr) with
    | none => .err 404 "Employee not found"
    | some emp => .ok 200 "Employee retrieved successfully" emp

/-- The PUT handler body: format check, `findIndex`, then
`employees[i] = {...employees[i], name, age}` — the body's `id` field is
never read. -/
def updateHandler (st : AppState) (idStr : String) (b : ReqBody) : ApiResult × AppState :=
  if !isDigits idStr then
    (.err 400 "Invalid ID format. ID must be a number.", st)
  else
    let employeeId := parseIntDigits idStr
    match st.employees.findIdx? (fun emp => emp.id == employeeId) with
    | none => (.err 404 "Employee not found", st)
    | some i =>
        let old := st.employees.getD i ⟨0, "", 0⟩
        let updated : Employee := { old with name := getStr b.name, age := getNum b.age }
        (.ok 200 "Employee updated successfully" updated,
          ⟨st.employees.set i updated, st.nextId⟩)

/-- `PUT /employees/:id`: Fastify validates the body against
`createEmployeeSchema` (the schema attached to the PUT route), coercing it
in place, then runs the handler on the coerced body. -/
def putEmployees (st : AppState) (idStr : String) (b : ReqBody) : ApiResult × AppState :=
  match validateCreate b with
  | [] => updateHandler st idStr (coerceBody b)
  | errs => (.err 400 (errorMessage errs), st)

/-- `DELETE /employees/:id`: format check, `findIndex`, then
`splice(i, 1)` returning the removed record. -/
def deleteEmployees (st : AppState) (idStr : String) : ApiResult × AppState :=
  if !isDigits idStr then
    (.err 400 "Invalid ID format. ID must be a number.", st)
  else
    let employeeId := parseIntDigits idStr
    match st.employees.findIdx? (fun emp => emp.id == employeeId) with
    | none => (.err 404 "Employee not found", st)
    | some i =>
        let deleted := st.employees.getD i ⟨0, "", 0⟩
        (.ok 200 "Employee deleted successfully" deleted,
          ⟨st.employees.eraseIdx i, st.nextId⟩)

/-- A mutating request against the store, for reasoning about operation
sequences. -/
inductive Op where
  | create (b : ReqBody) : Op
  | update (idStr : String) (b : ReqBody) : Op
  | delete (idStr : String) : Op
  deriving DecidableEq

/-- The state transition of one request. -/
def applyOp (st : AppState) : Op → AppState
  | .create b => (postEmployees st b).2
  | .update idStr b => (putEmployees st idStr b).2
  | .delete idStr => (deleteEmployees st idStr).2

/-- Run a request sequence from the empty store. -/
def runOps (ops : List Op) : AppState := ops.foldl applyOp initialState

/-- The guard of the amended uniqueness claim: an explicit-id create may only
supply an id (as the handler sees it, after coercion) below the current
auto-id counter. -/
def explicitIdBelowCounter (st : AppState) : Op → Bool
  | .create b =>
      match (coerceBody b).id with
      | some v => jsNumToNat v < st.nextId
      | none => true
  | _ => true

/-- `explicitIdBelowCounter` holding at every step of a request sequence. -/
def allExplicitIdsBelowCounter : AppState → List Op → Bool
  | _, [] => true
  | st, op :: rest =>
      explicitIdBelowCounter st op && allExplicitIdsBelowCounter (applyOp st op) rest

/-- The store invariant: record ids are pairwise distinct and all lie below
the auto-id counter. -/
def StoreInv (st : AppState) : Prop :=
  (st.employees.map Employee.id).Nodup ∧ ∀ e ∈ st.employees, e.id < st.nextId

section Helpers

/-- The error handler only reads the first error, so a nonempty prefix
determines the message. -/
theorem errorMessage_append {l r : List VError} (h : l ≠ []) :
    errorMessage (l ++ r) = errorMessage l := by
  cases l with
  | nil => exact absurd rfl h
  | cons e t => rfl

theorem getD_eq_get {l : List Employee} {i : Nat} (hi : i < l.length) (d : Employee) :
    l.getD i d = l.get ⟨i, hi⟩ := by
  induction l generalizing i with
  | nil => simp at hi
  | cons e t ih =>
    cases i with
    | zero => rfl
    | succ j => exact ih (Nat.lt_of_succ_lt_succ hi)

theorem findIdx?_eq_none_iff {p : Employee → Bool} {l : List Employee} {s : Nat} :
    l.findIdx? p s = none ↔ ∀ x ∈ l, p x = false := by
  induction l generalizing s with
  | nil => simp
  | cons e t ih =>
    rw [List.findIdx?_cons]
    by_cases hpe : p e = true
    · simp [hpe]
    · have hpe' : p e = false := by
        cases hp : p e
        · rfl
        · exact absurd hp hpe
      simp [hpe', ih]

theorem findIdx?_of_nodup {l : List Employee} {n i : Nat} (hi : i < l.length)
    (hnd : (l.map Employee.id).Nodup) (hget : (l.get ⟨i, hi⟩).id = n) (s : Nat) :
    l.findIdx? (fun e => e.id == n) s = some (s + i) := by
  induction l generalizing i s with
  | nil => simp at hi
  | cons e t ih =>
    rw [List.findIdx?_cons]
    rw [List.map_cons, List.nodup_cons] at hnd
    cases i with
    | zero =>
      simp only [List.get] at hget
      simp [hget]
    | succ j =>
      have hj : j < t.length := Nat.lt_of_succ_lt_succ hi
      have hmem : n ∈ t.map Employee.id := by
        rw [List.mem_map]
        exact ⟨t.get ⟨j, hj⟩, List.get_mem t j hj, hget⟩
      have hne : (e.id == n) = false := by
        rw [beq_eq_false_iff_ne]
        intro h
        exact hnd.1 (h ▸ hmem)
      rw [hne]
      simp only [if_false, Bool.false_eq_true]
      rw [ih hj hnd.2 hget (s + 1)]
      congr 1
      omega

theorem map_id_set {l : List Employee} {i : Nat} {e : Employee}
    (he : ∃ hi : i < l.length, e.id = (l.get ⟨i, hi⟩).id) :
    (l.set i e).map Employee.id = l.map Employee.id := by
  induction l generalizing i with
  | nil => rfl
  | cons a t ih =>
    obtain ⟨hi, hid⟩ := he
    cases i with
    | zero => simp [List.get] at hid; simp [hid]
    | succ j =>
      rw [List.set_cons_succ, List.map_cons, List.map_cons]
      rw [ih ⟨Nat.lt_of_succ_lt_succ hi, hid⟩]

theorem map_id_eraseIdx (l : List Employee) (i : Nat) :
    (l.eraseIdx i).map Employee.id = (l.map Employee.id).eraseIdx i := by
  induction l generalizing i with
  | nil => rfl
  | cons a t ih =>
    cases i with
    | zero => rfl
    | succ j => simp [List.eraseIdx_cons_succ, ih]

theorem eraseIdx_id_ne {l : List Employee} {i : Nat} (hi : i < l.length)
    (hnd : (l.map Employee.id).Nodup) :
    ∀ x ∈ l.eraseIdx i, x.id ≠ (l.get ⟨i, hi⟩).id := by
  induction l generalizing i with
  | nil => simp at hi
  | cons e t ih =>
    rw [List.map_cons, List.nodup_cons] at hnd
    cases i with
    | zero =>
      intro x hx
      simp only [List.eraseIdx_cons_zero] at hx
      intro hcontra
      exact hnd.1 (List.mem_map.mpr ⟨x, hx, hcontra⟩)
    | succ j =>
      have hj : j < t.length := Nat.lt_of_succ_lt_succ hi
      intro x hx
      simp only [List.eraseIdx_cons_succ, List.mem_cons] at hx
      rcases hx with rfl | hx
      · intro hcontra
        refine hnd.1 (List.mem_map.mpr ⟨t.get ⟨j, hj⟩, List.get_mem t j hj, ?_⟩)
        exact hcontra.symm
      · exact ih hj hnd.2 x hx

theorem stringNeEmpty_length {s : String} (h : s ≠ "") : (s.length < 1) = False := by
  cases s with
  | mk data =>
    cases data with
    | nil => exact absurd rfl h
    | cons c cs => simp [String.length]


theorem findIdx?_some_spec {p : Employee → Bool} {l : List Employee} :
    ∀ {s j : Nat}, l.findIdx? p s = some j →
      ∃ i, ∃ hi : i < l.length, j = s + i ∧ p (l.get ⟨i, hi⟩) = true := by
  induction l with
  | nil =>
    intro s j h
    simp [List.findIdx?] at h
  | cons e t ih =>
    intro s j h
    rw [List.findIdx?_cons] at h
    by_cases hpe : p e = true
    · refine ⟨0, Nat.succ_pos _, ?_, hpe⟩
      simp [hpe] at h
      omega
    · have hpe' : p e = false := by
        cases hp : p e
        · rfl
        · exact absurd hp hpe
      rw [hpe'] at h
      simp only [Bool.false_eq_true, if_false] at h
      obtain ⟨i, hi, rfl, hp⟩ := ih h
      exact ⟨i + 1, Nat.succ_lt_succ hi, by omega, hp⟩

/-- A successful update in full: the record at the found position keeps its
id and gets the (coerced) body's name and age; everything else is
untouched. -/
theorem update_success_eq (st : AppState) (idStr : String) (b : ReqBody) (i : Nat)
    (hi : i < st.employees.length)
    (hv : validateCreate b = []) (hd : isDigits idStr = true)
    (hnd : (st.employees.map Employee.id).Nodup)
    (hid : (st.employees.get ⟨i, hi⟩).id = parseIntDigits idStr) :
    putEmployees st idStr b =
      (ApiResult.ok 200 "Employee updated successfully"
         ⟨(st.employees.get ⟨i, hi⟩).id, getStr (coerceBody b).name,
          getNum (coerceBody b).age⟩,
       ⟨st.employees.set i
          ⟨(st.employees.get ⟨i, hi⟩).id, getStr (coerceBody b).name,
           getNum (coerceBody b).age⟩,
        st.nextId⟩) := by
  have hfind := findIdx?_of_nodup hi hnd hid 0
  rw [Nat.zero_add] at hfind
  simp only [putEmployees, hv, updateHandler, hd, Bool.not_true, Bool.false_eq_true,
    if_false, hfind, getD_eq_get hi]

/-- A successful delete in full: the found record is removed and returned. -/
theorem delete_success_eq (st : AppState) (idStr : String) (i : Nat)
    (hi : i < st.employees.length)
    (hd : isDigits idStr = true)
    (hnd : (st.employees.map Employee.id).Nodup)
    (hid : (st.employees.get ⟨i, hi⟩).id = parseIntDigits idStr) :
    deleteEmployees st idStr =
      (ApiResult.ok 200 "Employee deleted successfully" (st.employees.get ⟨i, hi⟩),
       ⟨st.employees.eraseIdx i, st.nextId⟩) := by
  have hfind := findIdx?_of_nodup hi hnd hid 0
  rw [Nat.zero_add] at hfind
  simp only [deleteEmployees, hd, Bool.not_true, Bool.false_eq_true,
    if_false, hfind, getD_eq_get hi]

theorem storeInv_initial : StoreInv initialState := by
  constructor
  · simp [initialState]
  · simp [initialState]

theorem storeInv_create (st : AppState) (b : ReqBody) (hinv : StoreInv st)
    (hop : explicitIdBelowCounter st (.create b) = true) :
    StoreInv (postEmployees st b).2 := by
  unfold postEmployees
  cases hv : validateCreate b with
  | cons e t => exact hinv
  | nil =>
    unfold createHandler
    cases hb : (coerceBody b).id with
    | some v =>
      simp only [explicitIdBelowCounter, hb] at hop
      have hlt : jsNumToNat v < st.nextId := of_decide_eq_true hop
      by_cases hex : (st.employees.find? (fun emp => emp.id == jsNumToNat v)).isSome = true
      · simp only [hex, if_true]
        exact hinv
      · have hnone : st.employees.find? (fun emp => emp.id == jsNumToNat v) = none :=
          Option.not_isSome_iff_eq_none.mp hex
        have hfresh : ∀ y ∈ st.employees, y.id ≠ jsNumToNat v := by
          intro y hy
          have := List.find?_eq_none.mp hnone y hy
          simpa using this
        simp only [hex, Bool.false_eq_true, if_false]
        constructor
        · rw [List.map_append, List.nodup_append]
          refine ⟨hinv.1, List.nodup_singleton _, ?_⟩
          intro a ha hb2
          simp only [List.map_cons, List.map_nil, List.mem_singleton] at hb2
          obtain ⟨y, hy, rfl⟩ := List.mem_map.mp ha
          exact hfresh y hy hb2
        · intro x hx
          rcases List.mem_append.mp hx with hx | hx
          · exact hinv.2 x hx
          · simp only [List.mem_singleton] at hx
            subst hx
            exact hlt
    | none =>
      have hfresh : ∀ y ∈ st.employees, y.id ≠ st.nextId := by
        intro y hy
        exact Nat.ne_of_lt (hinv.2 y hy)
      constructor
      · rw [List.map_append, List.nodup_append]
        refine ⟨hinv.1, List.nodup_singleton _, ?_⟩
        intro a ha hb2
        simp only [List.map_cons, List.map_nil, List.mem_singleton] at hb2
        obtain ⟨y, hy, rfl⟩ := List.mem_map.mp ha
        exact hfresh y hy hb2
      · intro x hx
        rcases List.mem_append.mp hx with hx | hx
        · exact Nat.lt_succ_of_lt (hinv.2 x hx)
        · simp only [List.mem_singleton] at hx
          subst hx
          exact Nat.lt_succ_self _

theorem storeInv_update (st : AppState) (idStr : String) (b : ReqBody)
    (hinv : StoreInv st) : StoreInv (putEmployees st idStr b).2 := by
  unfold putEmployees
  cases hv : validateCreate b with
  | cons e t => exact hinv
  | nil =>
    unfold updateHandler
    by_cases hd : isDigits idStr = true
    · simp only [hd, Bool.not_true, Bool.false_eq_true, if_false]
      cases hfind : st.employees.findIdx? (fun emp => emp.id == parseIntDigits idStr) with
      | none => exact hinv
      | some j =>
        obtain ⟨i, hi, hji, hp⟩ := findIdx?_some_spec hfind
        rw [Nat.zero_add] at hji
        subst hji
        simp only [getD_eq_get hi]
        have hideq :
            (Employee.mk (st.employees.get ⟨j, hi⟩).id (getStr (coerceBody b).name)
                (getNum (coerceBody b).age)).id
              = (st.employees.get ⟨j, hi⟩).id := rfl
        have hmap := map_id_set (l := st.employees)
          (e := ⟨(st.employees.get ⟨j, hi⟩).id, getStr (coerceBody b).name,
            getNum (coerceBody b).age⟩) ⟨hi, hideq⟩
        constructor
        · exact hmap ▸ hinv.1
        · intro x hx
          have hxid : x.id ∈ (st.employees.set j
              ⟨(st.employees.get ⟨j, hi⟩).id, getStr (coerceBody b).name,
               getNum (coerceBody b).age⟩).map Employee.id :=
            List.mem_map.mpr ⟨x, hx, rfl⟩
          rw [hmap] at hxid
          obtain ⟨y, hy, hyx⟩ := List.mem_map.mp hxid
          exact hyx ▸ hinv.2 y hy
    · have hd' : isDigits idStr = false := by
        cases h : isDigits idStr
        · rfl
        · exact absurd h hd
      simp only [hd', Bool.not_false, if_true]
      exact hinv

theorem storeInv_delete (st : AppState) (idStr : String)
    (hinv : StoreInv st) : StoreInv (deleteEmployees st idStr).2 := by
  unfold deleteEmployees
  by_cases hd : isDigits idStr = true
  · simp only [hd, Bool.not_true, Bool.false_eq_true, if_false]
    cases hfind : st.employees.findIdx? (fun emp => emp.id == parseIntDigits idStr) with
    | none => exact hinv
    | some j =>
      constructor
      · rw [map_id_eraseIdx]
        exact hinv.1.sublist (List.eraseIdx_sublist _ _)
      · intro x hx
        exact hinv.2 x ((List.eraseIdx_sublist _ _).subset hx)
  · have hd' : isDigits idStr = false := by
      cases h : isDigits idStr
      · rfl
      · exact absurd h hd
    simp only [hd', Bool.not_false, if_true]
    exact hinv

theorem storeInv_applyOp (st : AppState) (op : Op) (hinv : StoreInv st)
    (hop : explicitIdBelowCounter st op = true) : StoreInv (applyOp st op) := by
  cases op with
  | create b => exact storeInv_create st b hinv hop
  | update idStr b => exact storeInv_update st idStr b hinv
  | delete idStr => exact storeInv_delete st idStr hinv

theorem storeInv_run : ∀ (ops : List Op) (st : AppState), StoreInv st →
    allExplicitIdsBelowCounter st ops = true → StoreInv (ops.foldl applyOp st) := by
  intro ops
  induction ops with
  | nil => intro st hinv _; exact hinv
  | cons op rest ih =>
    intro st hinv hall
    simp only [allExplicitIdsBelowCounter, Bool.and_eq_true] at hall
    exact ih (applyOp st op) (storeInv_applyOp st op hinv hall.1) hall.2

end Helpers

theorem isNone_false_of_ne_none {o : Option JsonValue} (h : o ≠ none) :
    o.isNone = false := by
  cases o
  · exact absurd rfl h
  · rfl

/-- Any nonempty batch of age errors maps to the unified age message. -/
theorem age_error_message {v : JsonValue} (h : (validateAge v).1 ≠ []) :
    errorMessage (validateAge v).1 = "Age must be between 5 and 95 years" := by
  cases hc : coerceToInteger v with
  | none =>
    simp only [validateAge, hc]
    rfl
  | some q =>
    by_cases h5 : q < 5
    · simp only [validateAge, hc, if_pos h5, List.singleton_append]
      rfl
    · by_cases h95 : 95 < q
      · simp only [validateAge, hc, if_neg h5, if_pos h95, List.nil_append]
        rfl
      · refine absurd ?_ h
        simp [validateAge, hc, if_neg h5, if_neg h95]

/-- C1 (counterexample): starting from the empty store, an explicit-id create
with id 1 followed by an auto-id create yields two stored records that both
carry id 1 — the auto branch assigns the counter value without any collision
check, so the uniqueness invariant fails on this two-request sequence. -/
theorem uniqueness_fails_on_explicit_then_auto :
    runOps [Op.create ⟨some (.vnum 1), some (.vstr "A"), some (.vnum 30)⟩,
            Op.create ⟨none, some (.vstr "B"), some (.vnum 30)⟩]
      = ⟨[⟨1, "A", 30⟩, ⟨1, "B", 30⟩], 2⟩
    ∧ ¬ ((runOps [Op.create ⟨some (.vnum 1), some (.vstr "A"), some (.vnum 30)⟩,
            Op.create ⟨none, some (.vstr "B"), some (.vnum 30)⟩]).employees.map
              Employee.id).Nodup := by
  constructor
  · decide
  · decide

/-- C1 (amended): for every sequence of create, update and delete requests
starting from the empty store in which each explicit-id create supplies an id
strictly below the auto-id counter's value at that moment, no two stored
records share an id. -/
theorem uniqueness_holds_below_counter (ops : List Op)
    (h : allExplicitIdsBelowCounter initialState ops = true) :
    ((runOps ops).employees.map Employee.id).Nodup :=
  (storeInv_run ops initialState storeInv_initial h).1

/-- A concrete instance of the amended uniqueness theorem: an auto create
followed by an explicit create with id 1 (below the counter, now 2). -/
theorem uniqueness_holds_below_counter_witness :
    allExplicitIdsBelowCounter initialState
        [Op.create ⟨none, some (.vstr "C"), some (.vnum 40)⟩,
         Op.create ⟨some (.vnum 1), some (.vstr "D"), some (.vnum 41)⟩] = true
    ∧ ((runOps [Op.create ⟨none, some (.vstr "C"), some (.vnum 40)⟩,
         Op.create ⟨some (.vnum 1), some (.vstr "D"), some (.vnum 41)⟩]).employees.map
           Employee.id).Nodup :=
  ⟨by decide, uniqueness_holds_below_counter _ (by decide)⟩

/-- C2: on a body that passes validation, a create without an id returns a
record whose id is the current counter value and bumps the counter by one; a
create with an explicit id leaves the counter unchanged (whether it succeeds
or conflicts). -/
theorem create_counter_spec (st : AppState) (b : ReqBody)
    (hv : validateCreate b = []) :
    (b.id = none →
        (postEmployees st b).1
            = ApiResult.ok 201 "Employee created successfully"
                ⟨st.nextId, getStr (coerceBody b).name, getNum (coerceBody b).age⟩
          ∧ (postEmployees st b).2.nextId = st.nextId + 1)
      ∧ ∀ v, b.id = some v → (postEmployees st b).2.nextId = st.nextId := by
  constructor
  · intro hid
    have hcb : (coerceBody b).id = none := by simp [coerceBody, coerceField, hid]
    constructor
    · simp [postEmployees, hv, createHandler, hcb]
    · simp [postEmployees, hv, createHandler, hcb]
  · intro v hid
    have hcb : (coerceBody b).id = some (validateId v).2 := by
      simp [coerceBody, coerceField, hid]
    simp only [postEmployees, hv, createHandler, hcb]
    by_cases hex :
        (st.employees.find?
          (fun emp => emp.id == jsNumToNat (validateId v).2)).isSome = true
    · simp [hex]
    · have hex' :
          (st.employees.find?
            (fun emp => emp.id == jsNumToNat (validateId v).2)).isSome = false := by
        cases h : (st.employees.find?
          (fun emp => emp.id == jsNumToNat (validateId v).2)).isSome
        · rfl
        · exact absurd h hex
      simp [hex']

/-- A concrete instance of the counter theorem: the first auto create from
the empty store yields id 1 and counter 2. -/
theorem create_counter_spec_witness :
    (postEmployees initialState ⟨none, some (.vstr "A"), some (.vnum 30)⟩).1
        = ApiResult.ok 201 "Employee created successfully" ⟨1, "A", 30⟩
      ∧ (postEmployees initialState ⟨none, some (.vstr "A"), some (.vnum 30)⟩).2.nextId = 2 := by
  have h :=
    (create_counter_spec initialState ⟨none, some (.vstr "A"), some (.vnum 30)⟩
      (by decide)).1 rfl
  exact ⟨h.1, h.2⟩

/-- C3 (counterexample): a create whose body has both an invalid id (0) and
an invalid age (200) is answered with the id error message, not the age
error message — so age errors are NOT reported before errors about a
supplied id. -/
theorem id_error_reported_before_age_error :
    (postEmployees initialState
        ⟨some (.vnum 0), some (.vstr "Bob"), some (.vnum 200)⟩).1
        = ApiResult.err 400 "ID must be at least 1"
      ∧ (postEmployees initialState
          ⟨some (.vnum 0), some (.vstr "Bob"), some (.vnum 200)⟩).1
        ≠ ApiResult.err 400 "Age must be between 5 and 95 years" := by
  constructor
  · decide
  · decide

/-- C3 (amended): the single error message follows this precedence: missing
`name` first, then missing `age`, then (both fields present) errors about a
supplied `id`, then an empty `name`, then age errors. -/
theorem validation_error_precedence (b : ReqBody) :
    (b.name = none → errorMessage (validateCreate b) = "name is required")
    ∧ (b.name ≠ none → b.age = none →
        errorMessage (validateCreate b) = "age is required")
    ∧ (b.name ≠ none → b.age ≠ none → idErrors b.id ≠ [] →
        errorMessage (validateCreate b) = errorMessage (idErrors b.id))
    ∧ (b.name ≠ none → b.age ≠ none → idErrors b.id = [] →
        b.name = some (.vstr "") →
        errorMessage (validateCreate b) = "name cannot be empty")
    ∧ (b.name ≠ none → b.age ≠ none → idErrors b.id = [] →
        nameErrors b.name = [] → ageErrors b.age ≠ [] →
        errorMessage (validateCreate b) = "Age must be between 5 and 95 years") := by
  refine ⟨?_, ?_, ?_, ?_, ?_⟩
  · intro hname
    have hn : b.name.isNone = true := by simp [hname]
    unfold validateCreate
    rw [List.append_assoc, List.append_assoc]
    rw [errorMessage_append (l := requiredErrors b) (by simp [requiredErrors, hn])]
    simp only [requiredErrors, hn, if_true, List.singleton_append]
    rfl
  · intro hname hage
    have hn := isNone_false_of_ne_none hname
    have ha : b.age.isNone = true := by simp [hage]
    unfold validateCreate
    rw [List.append_assoc, List.append_assoc]
    rw [errorMessage_append (l := requiredErrors b) (by simp [requiredErrors, hn, ha])]
    simp only [requiredErrors, hn, ha, if_true, Bool.false_eq_true, if_false,
      List.nil_append, List.singleton_append]
    rfl
  · intro hname hage hid
    have hn := isNone_false_of_ne_none hname
    have ha := isNone_false_of_ne_none hage
    have hreq : requiredErrors b = [] := by simp [requiredErrors, hn, ha]
    unfold validateCreate
    rw [hreq, List.nil_append, List.append_assoc]
    exact errorMessage_append hid
  · intro hname hage hid hempty
    have ha := isNone_false_of_ne_none hage
    have hreq : requiredErrors b = [] := by
      have hn : b.name.isNone = false := by rw [hempty]; rfl
      simp [requiredErrors, hn, ha]
    unfold validateCreate
    rw [hreq, List.nil_append, hid, List.nil_append, hempty]
    rw [errorMessage_append (l := nameErrors (some (.vstr ""))) (by decide)]
    rfl
  · intro hname hage hid hnm hageerr
    have hn := isNone_false_of_ne_none hname
    have ha := isNone_false_of_ne_none hage
    have hreq : requiredErrors b = [] := by simp [requiredErrors, hn, ha]
    unfold validateCreate
    rw [hreq, List.nil_append, hid, List.nil_append, hnm, List.nil_append]
    cases hbage : b.age with
    | none => exact absurd hbage hage
    | some v =>
      rw [hbage] at hageerr
      simp only [ageErrors] at hageerr ⊢
      exact age_error_message hageerr

/-- A concrete instance of the precedence theorem: with a bad id (0) and
valid name and age, the reported message is the id error's message. -/
theorem validation_error_precedence_witness :
    errorMessage (validateCreate ⟨some (.vnum 0), some (.vstr "Eve"), some (.vnum 50)⟩)
      = "ID must be at least 1" := by
  have h :=
    (validation_error_precedence
        ⟨some (.vnum 0), some (.vstr "Eve"), some (.vnum 50)⟩).2.2.1
      (by decide) (by decide) (by decide)
  rw [h]
  decide

/-- C4 (counterexample): the validator coerces the age string "30" to the
integer 30 (Fastify's default `coerceTypes` survives the `allErrors`
override), so the create succeeds with 201 instead of failing with the age
message. -/
theorem age_string_coerced_succeeds :
    (postEmployees initialState ⟨none, some (.vstr "John"), some (.vstr "30")⟩).1
        = ApiResult.ok 201 "Employee created successfully" ⟨1, "John", 30⟩
      ∧ (postEmployees initialState ⟨none, some (.vstr "John"), some (.vstr "30")⟩).1
        ≠ ApiResult.err 400 "Age must be between 5 and 95 years" := by
  constructor
  · decide
  · decide

/-- C4 (amended): a create with a non-empty name and any integer age in
[5, 95] succeeds; ages 4, 96 and 25.5 are rejected with the unified age
message (a non-integral number is not coerced); the age string "30" is
coerced to the integer 30 and the create succeeds, storing age 30. -/
theorem age_bounds_validation :
    (∀ (st : AppState) (nm : String) (a : Int), nm ≠ "" → 5 ≤ a → a ≤ 95 →
        (postEmployees st ⟨none, some (.vstr nm), some (.vnum (a : Rat))⟩).1
          = ApiResult.ok 201 "Employee created successfully" ⟨st.nextId, nm, (a : Rat)⟩)
    ∧ (postEmployees initialState ⟨none, some (.vstr "John"), some (.vnum 4)⟩).1
        = ApiResult.err 400 "Age must be between 5 and 95 years"
    ∧ (postEmployees initialState ⟨none, some (.vstr "John"), some (.vnum 96)⟩).1
        = ApiResult.err 400 "Age must be between 5 and 95 years"
    ∧ (postEmployees initialState ⟨none, some (.vstr "John"), some (.vnum (25.5 : Rat))⟩).1
        = ApiResult.err 400 "Age must be between 5 and 95 years"
    ∧ (postEmployees initialState ⟨none, some (.vstr "John"), some (.vstr "30")⟩).1
        = ApiResult.ok 201 "Employee created successfully" ⟨1, "John", 30⟩ := by
  refine ⟨?_, by decide, by decide, ?_, by decide⟩
  · intro st nm a hnm h5 h95
    have hlt5 : ¬ ((a : Rat) < 5) := by
      rw [not_lt]
      exact_mod_cast h5
    have hgt95 : ¬ ((95 : Rat) < (a : Rat)) := by
      rw [not_lt]
      exact_mod_cast h95
    have hcoer : coerceToInteger (.vnum ((a : Int) : Rat)) = some ((a : Int) : Rat) := by
      simp [coerceToInteger, isInt, Rat.den_intCast]
    have hage : ageErrors (some (.vnum (a : Rat))) = [] := by
      simp [ageErrors, validateAge, hcoer, hlt5, hgt95]
    have hname : nameErrors (some (.vstr nm)) = [] := by
      simp [nameErrors, validateName, coerceToString, stringNeEmpty_length hnm]
    have hv : validateCreate ⟨none, some (.vstr nm), some (.vnum (a : Rat))⟩ = [] := by
      simp [validateCreate, requiredErrors, idErrors, hname, hage]
    simp [postEmployees, hv, createHandler, coerceBody, coerceField,
      validateName, validateAge, coerceToString, hcoer, getStr, getNum]
  · have h255 : (25.5 : Rat) = mkRat 51 2 := by norm_num
    rw [h255]
    decide

/-- A concrete instance of the age-bounds theorem: age 30 with name "Ann". -/
theorem age_bounds_validation_witness :
    (postEmployees initialState ⟨none, some (.vstr "Ann"), some (.vnum ((30 : Int) : Rat))⟩).1
      = ApiResult.ok 201 "Employee created successfully" ⟨1, "Ann", ((30 : Int) : Rat)⟩ :=
  age_bounds_validation.1 initialState "Ann" 30 (by decide) (by decide) (by decide)

/-- C5: for every non-digit id path parameter, getById, update (with a valid
body) and delete answer 400 with the format message; for every all-digit id
naming no stored record they answer 404 "Employee not found". -/
theorem id_format_validation (st : AppState) (idStr : String) (b : ReqBody) :
    (isDigits idStr = false →
        getEmployeeById st idStr
            = ApiResult.err 400 "Invalid ID format. ID must be a number."
          ∧ (deleteEmployees st idStr).1
            = ApiResult.err 400 "Invalid ID format. ID must be a number."
          ∧ (validateCreate b = [] →
              (putEmployees st idStr b).1
                = ApiResult.err 400 "Invalid ID format. ID must be a number."))
    ∧ (isDigits idStr = true → (∀ e ∈ st.employees, e.id ≠ parseIntDigits idStr) →
        getEmployeeById st idStr = ApiResult.err 404 "Employee not found"
          ∧ (deleteEmployees st idStr).1 = ApiResult.err 404 "Employee not found"
          ∧ (validateCreate b = [] →
              (putEmployees st idStr b).1 = ApiResult.err 404 "Employee not found")) := by
  constructor
  · intro hd
    refine ⟨?_, ?_, ?_⟩
    · simp [getEmployeeById, hd]
    · simp [deleteEmployees, hd]
    · intro hv
      simp [putEmployees, hv, updateHandler, hd]
  · intro hd hnone
    have hfind : st.employees.find? (fun emp => emp.id == parseIntDigits idStr) = none := by
      rw [List.find?_eq_none]
      intro x hx hc
      exact hnone x hx (by simpa using hc)
    have hfindIdx :
        st.employees.findIdx? (fun emp => emp.id == parseIntDigits idStr) = none := by
      rw [findIdx?_eq_none_iff]
      intro x hx
      rw [beq_eq_false_iff_ne]
      exact hnone x hx
    refine ⟨?_, ?_, ?_⟩
    · simp [getEmployeeById, hd, hfind]
    · simp [deleteEmployees, hd, hfindIdx]
    · intro hv
      simp [putEmployees, hv, updateHandler, hd, hfindIdx]

/-- Concrete instances of the id-format theorem: the non-digit string "1.5"
is rejected with the format message, and the digit string "7" (no record
with id 7) yields 404. -/
theorem id_format_validation_witness :
    getEmployeeById ⟨[⟨1, "A", 30⟩], 2⟩ "1.5"
        = ApiResult.err 400 "Invalid ID format. ID must be a number."
      ∧ getEmployeeById ⟨[⟨1, "A", 30⟩], 2⟩ "7"
        = ApiResult.err 404 "Employee not found" := by
  constructor
  · exact ((id_format_validation ⟨[⟨1, "A", 30⟩], 2⟩ "1.5" ⟨none, none, none⟩).1
      (by decide)).1
  · exact ((id_format_validation ⟨[⟨1, "A", 30⟩], 2⟩ "7" ⟨none, none, none⟩).2
      (by decide) (by decide)).1

/-- C6: a create whose valid body supplies an id (as the handler sees it
after validation) already held by a stored record is answered 409 with the
interpolated conflict message, and the state (records and counter) is
unchanged. -/
theorem duplicate_id_conflict (st : AppState) (b : ReqBody) (v : JsonValue)
    (hv : validateCreate b = []) (hb : (coerceBody b).id = some v)
    (hex : ∃ e ∈ st.employees, e.id = jsNumToNat v) :
    postEmployees st b
      = (ApiResult.err 409
           ("Employee with ID " ++ toString (jsNumToNat v) ++ " already exists"), st) := by
  have hsome : (st.employees.find? (fun emp => emp.id == jsNumToNat v)).isSome = true := by
    rw [List.find?_isSome]
    obtain ⟨e, he, heid⟩ := hex
    exact ⟨e, he, by simp [heid]⟩
  simp [postEmployees, hv, createHandler, hb, hsome]

/-- A concrete instance of the conflict theorem: re-creating id 3. -/
theorem duplicate_id_conflict_witness :
    postEmployees ⟨[⟨3, "A", 30⟩], 1⟩ ⟨some (.vnum 3), some (.vstr "B"), some (.vnum 25)⟩
      = (ApiResult.err 409 "Employee with ID 3 already exists", ⟨[⟨3, "A", 30⟩], 1⟩) := by
  have h := duplicate_id_conflict ⟨[⟨3, "A", 30⟩], 1⟩
      ⟨some (.vnum 3), some (.vstr "B"), some (.vnum 25)⟩ (.vnum 3)
      (by decide) (by decide) ⟨⟨3, "A", 30⟩, by decide, by decide⟩
  rw [h]
  rfl

/-- C7: a successful update (valid body, digit id, unique ids, record
present at position i) replaces exactly the record at position i, keeping
its id, its position and every other record, and leaves the counter
unchanged. -/
theorem update_frame (st : AppState) (idStr : String) (b : ReqBody) (i : Nat)
    (hi : i < st.employees.length)
    (hv : validateCreate b = []) (hd : isDigits idStr = true)
    (hnd : (st.employees.map Employee.id).Nodup)
    (hid : (st.employees.get ⟨i, hi⟩).id = parseIntDigits idStr) :
    putEmployees st idStr b
      = (ApiResult.ok 200 "Employee updated successfully"
           ⟨(st.employees.get ⟨i, hi⟩).id, getStr (coerceBody b).name,
            getNum (coerceBody b).age⟩,
         ⟨st.employees.set i
            ⟨(st.employees.get ⟨i, hi⟩).id, getStr (coerceBody b).name,
             getNum (coerceBody b).age⟩,
          st.nextId⟩) :=
  update_success_eq st idStr b i hi hv hd hnd hid

/-- A concrete instance of the update frame theorem: updating id 2 leaves
record 1 and the counter untouched. -/
theorem update_frame_witness :
    putEmployees ⟨[⟨1, "A", 30⟩, ⟨2, "B", 40⟩], 3⟩ "2"
        ⟨none, some (.vstr "Bee"), some (.vnum 41)⟩
      = (ApiResult.ok 200 "Employee updated successfully" ⟨2, "Bee", 41⟩,
         ⟨[⟨1, "A", 30⟩, ⟨2, "Bee", 41⟩], 3⟩) := by
  have h := update_frame ⟨[⟨1, "A", 30⟩, ⟨2, "B", 40⟩], 3⟩ "2"
      ⟨none, some (.vstr "Bee"), some (.vnum 41)⟩ 1 (by decide)
      (by decide) (by decide) (by decide) (by decide)
  rw [h]
  rfl

/-- C8: a successful delete removes exactly the record at the found
position (the rest kept in order), returns it as the response data, and a
subsequent getById with the same id answers 404. -/
theorem delete_removes_record (st : AppState) (idStr : String) (i : Nat)
    (hi : i < st.employees.length)
    (hd : isDigits idStr = true)
    (hnd : (st.employees.map Employee.id).Nodup)
    (hid : (st.employees.get ⟨i, hi⟩).id = parseIntDigits idStr) :
    deleteEmployees st idStr
        = (ApiResult.ok 200 "Employee deleted successfully" (st.employees.get ⟨i, hi⟩),
           ⟨st.employees.eraseIdx i, st.nextId⟩)
      ∧ st.employees.eraseIdx i = st.employees.take i ++ st.employees.drop (i + 1)
      ∧ getEmployeeById ⟨st.employees.eraseIdx i, st.nextId⟩ idStr
        = ApiResult.err 404 "Employee not found" := by
  refine ⟨delete_success_eq st idStr i hi hd hnd hid,
    List.eraseIdx_eq_take_drop_succ _ _, ?_⟩
  have hfind : (st.employees.eraseIdx i).find?
      (fun emp => emp.id == parseIntDigits idStr) = none := by
    rw [List.find?_eq_none]
    intro x hx hc
    have hne := eraseIdx_id_ne hi hnd x hx
    rw [hid] at hne
    exact hne (by simpa using hc)
  simp [getEmployeeById, hd, hfind]

/-- A concrete instance of the delete theorem: deleting id 1 from a
two-record store keeps record 2 and the counter, and getById 1 then
answers 404. -/
theorem delete_removes_record_witness :
    deleteEmployees ⟨[⟨1, "A", 30⟩, ⟨2, "B", 40⟩], 3⟩ "1"
        = (ApiResult.ok 200 "Employee deleted successfully" ⟨1, "A", 30⟩,
           ⟨[⟨2, "B", 40⟩], 3⟩)
      ∧ getEmployeeById ⟨[⟨2, "B", 40⟩], 3⟩ "1"
        = ApiResult.err 404 "Employee not found" := by
  have h := delete_removes_record ⟨[⟨1, "A", 30⟩, ⟨2, "B", 40⟩], 3⟩ "1" 0 (by decide)
      (by decide) (by decide) (by decide)
  exact ⟨h.1, h.2.2⟩

/-- C9: reset leaves the store empty with the counter at 1, whatever the
previous state, so the next auto-assigned create yields a record with
id 1. -/
theorem reset_clears_store (st : AppState) (b : ReqBody) :
    (resetOp st).employees = []
      ∧ (resetOp st).nextId = 1
      ∧ (validateCreate b = [] → b.id = none →
          (postEmployees (resetOp st) b).1
            = ApiResult.ok 201 "Employee created successfully"
                ⟨1, getStr (coerceBody b).name, getNum (coerceBody b).age⟩) := by
  refine ⟨rfl, rfl, ?_⟩
  intro hv hid
  have hcb : (coerceBody b).id = none := by simp [coerceBody, coerceField, hid]
  simp [postEmployees, hv, createHandler, hcb, resetOp]

/-- A concrete instance of the reset theorem: after resetting a nonempty
store with counter 7, the first auto create yields id 1. -/
theorem reset_clears_store_witness :
    (postEmployees (resetOp ⟨[⟨9, "Z", 50⟩], 7⟩)
        ⟨none, some (.vstr "N"), some (.vnum 20)⟩).1
      = ApiResult.ok 201 "Employee created successfully" ⟨1, "N", 20⟩ :=
  (reset_clears_store ⟨[⟨9, "Z", 50⟩], 7⟩
      ⟨none, some (.vstr "N"), some (.vnum 20)⟩).2.2 (by decide) rfl

/-- C10: a body id that is an integer at least 1 passes body validation;
the update result does not depend on the body id at all; and the updated
record's id is always the one parsed from the path parameter. -/
theorem update_ignores_body_id :
    (∀ q : Rat, 1 ≤ q → isInt q = true → idErrors (some (.vnum q)) = [])
    ∧ (∀ (st : AppState) (idStr : String) (b1 b2 : ReqBody),
        b1.name = b2.name → b1.age = b2.age →
        idErrors b1.id = [] → idErrors b2.id = [] →
        putEmployees st idStr b1 = putEmployees st idStr b2)
    ∧ (∀ (st : AppState) (idStr : String) (b : ReqBody) (i : Nat)
        (hi : i < st.employees.length),
        validateCreate b = [] → isDigits idStr = true →
        (st.employees.map Employee.id).Nodup →
        (st.employees.get ⟨i, hi⟩).id = parseIntDigits idStr →
        (putEmployees st idStr b).1
          = ApiResult.ok 200 "Employee updated successfully"
              ⟨parseIntDigits idStr, getStr (coerceBody b).name,
               getNum (coerceBody b).age⟩) := by
  refine ⟨?_, ?_, ?_⟩
  · intro q h1 hint
    have hq : ¬ (q < 1) := not_lt.mpr h1
    simp [idErrors, validateId, coerceToNumber, hq, hint]
  · intro st idStr b1 b2 hn ha hid1 hid2
    obtain ⟨i1, n1, a1⟩ := b1
    obtain ⟨i2, n2, a2⟩ := b2
    simp only at hn ha
    subst hn
    subst ha
    have hupd : updateHandler st idStr (coerceBody ⟨i1, n1, a1⟩)
        = updateHandler st idStr (coerceBody ⟨i2, n1, a1⟩) := rfl
    simp [putEmployees, validateCreate, requiredErrors, hid1, hid2, hupd]
  · intro st idStr b i hi hv hd hnd hid
    rw [update_success_eq st idStr b i hi hv hd hnd hid, hid]

/-- A concrete instance: a body carrying id 9 and one carrying no id give
the same update outcome on path id 1. -/
theorem update_ignores_body_id_witness :
    putEmployees ⟨[⟨1, "A", 30⟩], 2⟩ "1"
        ⟨some (.vnum 9), some (.vstr "Al"), some (.vnum 31)⟩
      = putEmployees ⟨[⟨1, "A", 30⟩], 2⟩ "1"
          ⟨none, some (.vstr "Al"), some (.vnum 31)⟩ :=
  update_ignores_body_id.2.1 ⟨[⟨1, "A", 30⟩], 2⟩ "1"
    ⟨some (.vnum 9), some (.vstr "Al"), some (.vnum 31)⟩
    ⟨none, some (.vstr "Al"), some (.vnum 31)⟩ rfl rfl (by decide) (by decide)
